import Mathlib

/-!
Verification development for the brand-detector video pipeline.

Shallow embedding of the core of the repository:
* `services/image_service.py` — `calculate_skip_frames`;
* `services/detection_service.py` — `detect_video`, `_generate_video_frames`
  (both streaming passes), `_find_nearest_processed_frame`,
  `_apply_detections_to_frame`, and `_create_video_from_frames`.

Pixel buffers are opaque: an `Image` is either a raw source buffer, a copy of
one, or a buffer with one more drawing primitive applied (cv2's in-place
`rectangle`/`putText` calls are modelled as successive `Image.draw` steps).
Python floats are modelled as rationals; `%.2f` formatting is modelled by
exact round-half-to-even at two decimals on the rational value.  The external
capabilities (the YOLO detector, cv2's `getTextSize`, the ffmpeg subprocess)
are oracle parameters of the embedding.
-/

/-- Embedding of `models/detection.py` `Detection`: bounding box `(x1, y1, x2, y2)`,
confidence, class id, class name.  The pipeline unpacks `bbox` into exactly
four coordinates, so it is embedded as a 4-tuple of rationals. -/
structure Detection where
  bbox : ℚ × ℚ × ℚ × ℚ
  confidence : ℚ
  class_id : ℤ
  class_name : String
deriving DecidableEq, Repr

/-- One cv2 drawing primitive, as invoked by `_apply_detections_to_frame`. -/
inductive DrawOp where
  | rectangle (p1 p2 : ℤ × ℤ) (color : ℤ × ℤ × ℤ) (thickness : ℤ)
  | putText (s : String) (org : ℤ × ℤ) (fontScale : ℚ) (color : ℤ × ℤ × ℤ)
      (thickness : ℤ)
deriving DecidableEq, Repr

/-- An opaque pixel buffer: a raw decoded source frame (identified by its
index in the source), the result of `frame.copy()`, or a buffer with one more
cv2 drawing primitive applied in place. -/
inductive Image where
  | raw (id : ℕ)
  | copy (img : Image)
  | draw (img : Image) (op : DrawOp)
deriving DecidableEq, Repr

/-- Python `int(x)` on a float: truncation toward zero. -/
def pyInt (q : ℚ) : ℤ :=
  if q < 0 then ⌈q⌉ else ⌊q⌋

/-- Round to the nearest integer, ties to even — the rounding used by
Python fixed-point formatting at two decimals (modelled on the exact
rational value). -/
def roundHalfEven (q : ℚ) : ℤ :=
  let f : ℤ := ⌊q⌋
  let r : ℚ := q - f
  if r < 1 / 2 then f
  else if 1 / 2 < r then f + 1
  else if f % 2 = 0 then f else f + 1

/-- Python two-decimal fixed formatting of the (exact) value `q`. -/
def format2f (q : ℚ) : String :=
  let n : ℤ := roundHalfEven (q * 100)
  let a : ℕ := n.natAbs
  let sign : String := if n < 0 then "-" else ""
  let fp : ℕ := a % 100
  sign ++ toString (a / 100) ++ "." ++ (if fp < 10 then "0" else "") ++ toString fp

/-- The label drawn for one detection: the class name, a space, and the
confidence formatted to two decimal places. -/
def detectionLabel (d : Detection) : String :=
  d.class_name ++ " " ++ format2f d.confidence

/-- The three cv2 calls `_apply_detections_to_frame` issues for one
detection: the bounding box, the filled label background, the label text.
`g` is the `cv2.getTextSize` oracle (label, font scale, thickness ↦ size). -/
def drawDetection (g : String → ℚ → ℤ → ℤ × ℤ) (img : Image) (d : Detection) :
    Image :=
  let x1 := pyInt d.bbox.1
  let y1 := pyInt d.bbox.2.1
  let x2 := pyInt d.bbox.2.2.1
  let y2 := pyInt d.bbox.2.2.2
  let label := detectionLabel d
  let sz := g label (1 / 2) 2
  Image.draw
    (Image.draw
      (Image.draw img (DrawOp.rectangle (x1, y1) (x2, y2) (0, 255, 0) 2))
      (DrawOp.rectangle (x1, y1 - sz.2 - 10) (x1 + sz.1, y1) (0, 255, 0) (-1)))
    (DrawOp.putText label (x1, y1 - 5) (1 / 2) (0, 0, 0) 2)

/-- Embedding of `_apply_detections_to_frame`: copy the frame, then draw every detection
onto the copy in order. -/
def applyDetectionsToFrame (g : String → ℚ → ℤ → ℤ × ℤ) (frame : Image)
    (detections : List Detection) : Image :=
  detections.foldl (drawDetection g) (Image.copy frame)

/-- The `for frame in processed_frames` loop of
`_find_nearest_processed_frame`: running best and its distance, replaced only
on strictly smaller distance. -/
def scanNearest (current : ℕ) : ℕ → List ℕ → ℕ
  | best, [] => best
  | best, f :: rest =>
      if Nat.dist current f < Nat.dist current best then scanNearest current f rest
      else scanNearest current best rest

/-- Embedding of `_find_nearest_processed_frame`: on an empty key set return the query
itself; otherwise sort the keys and scan them for the minimal absolute
distance (strict comparison, so the first — lowest — minimiser is kept). -/
def findNearestProcessedFrame (current : ℕ) (processedFrames : List ℕ) : ℕ :=
  match List.insertionSort (· ≤ ·) processedFrames with
  | [] => current
  | nearest :: rest => scanNearest current nearest (nearest :: rest)

/-- The per-frame body of the second pass of `_generate_video_frames`:
look up the nearest processed frame; if present with a non-empty detection
list, redraw those detections on the current frame's own pixels, otherwise
pass the current frame through unchanged. -/
def interpolateFrame (g : String → ℚ → ℤ → ℤ × ℤ)
    (detectionResults : List (ℕ × (List Detection × Image))) (frameCount : ℕ)
    (frame : Image) : Image :=
  let nearest := findNearestProcessedFrame frameCount (detectionResults.map Prod.fst)
  match detectionResults.lookup nearest with
  | some (detections, _) =>
      if detections = [] then frame else applyDetectionsToFrame g frame detections
  | none => frame

/-- Embedding of `image_service.calculate_skip_frames`:
`max(1, video_fps // target_fps)`.  Python raises `ZeroDivisionError` on a
zero divisor, and `//` on ints is floor division (`Int.fdiv`). -/
def calculate_skip_frames (video_fps target_fps : ℤ) : Except String ℤ :=
  if target_fps = 0 then
    Except.error "ZeroDivisionError: integer division or modulo by zero"
  else
    Except.ok (max 1 (Int.fdiv video_fps target_fps))

/-- The expression `total_video_frames // skip_frames if skip_frames > 0 else
total_video_frames` from `_generate_video_frames`. -/
def estimatedProcessedFrames (total skip : ℕ) : ℕ :=
  if skip > 0 then total / skip else total

/-- Zero-padded frame index, as produced by the frame-name format
expressions. -/
def pad6 (n : ℕ) : String :=
  let s := toString n
  String.mk (List.replicate (6 - s.length) '0') ++ s

/-- The frame file name pattern: the literal prefix, the zero-padded index
and the jpg suffix. -/
def frameFileName (n : ℕ) : String :=
  "frame_" ++ pad6 n ++ ".jpg"

/-- The streamed pipeline events: the JSON payloads of the `yield`
statements in `_generate_video_frames`, by their `type` tag. -/
inductive Event where
  | status (message : String) (estimatedTotalFrames : ℕ)
  | frame (frameNumber : ℕ) (frameUrl : String) (detections : List Detection)
      (totalDetections : ℕ) (timestamp : ℚ)
  | complete (message : String) (totalFrames : ℕ) (processedVideoUrl : String)
  | videoReady (message : String) (processedVideoUrl : String)
deriving DecidableEq, Repr

/-- Outcome of one `model_service.detect_in_frame` call: an exception, or a
detection list together with the optional annotated render. -/
inductive DetectOutcome where
  | err (msg : String)
  | ok (detections : List Detection) (annotated : Option Image)

/-- Observable outcome of the ffmpeg subprocess launched by
`_create_video_from_frames`: binary absent (`FileNotFoundError`) or an exit
with the given return code and stderr text. -/
inductive EncoderOutcome where
  | absent
  | exit (returncode : ℤ) (stderr : String)

/-- Embedding of `_create_video_from_frames`: `FileNotFoundError` is re-raised from its
own handler (so it is not wrapped by the generic `except Exception` clause);
a non-zero return code raises inside the `try`, which the generic clause
catches and wraps. -/
def createVideoFromFrames (enc : EncoderOutcome) : Except String Unit :=
  match enc with
  | EncoderOutcome.absent =>
      Except.error "FFmpeg not found. Please install FFmpeg to process videos."
  | EncoderOutcome.exit code stderr =>
      if code ≠ 0 then
        Except.error ("Error creating video with FFmpeg: FFmpeg failed to create video: "
          ++ stderr)
      else Except.ok ()

/-- Accumulated observable state of the first (sampling) pass of
`_generate_video_frames`: the `detection_results` dict (association list in
key order), the `frame` events yielded, the final `processed_count`, the
files written into `config.frames_dir`, and the frame indices submitted to
the detector. -/
structure PassOneOut where
  results : List (ℕ × (List Detection × Image))
  events : List Event
  processed : ℕ
  framesDirFiles : List String
  submitted : List ℕ
deriving Repr

/-- The first pass of `_generate_video_frames` over the remaining source
frames, with current `frame_count` `i` and `processed_count` `p`.  A frame is
submitted to the detector iff `frame_count % skip_frames == 0`; a detector
exception stores `([], frame)` and yields nothing; a `None` annotated render
stores and yields nothing; otherwise the result is stored, the annotated
frame is written to `frames_dir`, and a `frame` event is yielded. -/
def passOne (detect : ℕ → Image → DetectOutcome) (skip fps : ℕ) :
    List Image → ℕ → ℕ → PassOneOut
  | [], _, p => ⟨[], [], p, [], []⟩
  | frame :: rest, i, p =>
      if i % skip = 0 then
        match detect i frame with
        | DetectOutcome.err _ =>
            let out := passOne detect skip fps rest (i + 1) p
            { out with
              results := (i, ([], frame)) :: out.results
              submitted := i :: out.submitted }
        | DetectOutcome.ok _ none =>
            let out := passOne detect skip fps rest (i + 1) p
            { out with submitted := i :: out.submitted }
        | DetectOutcome.ok detections (some annotated) =>
            let out := passOne detect skip fps rest (i + 1) (p + 1)
            { results := (i, (detections, annotated)) :: out.results
              events := Event.frame p ("/static/frames/" ++ frameFileName p)
                  detections detections.length ((i : ℚ) / (fps : ℚ)) :: out.events
              processed := out.processed
              framesDirFiles := frameFileName p :: out.framesDirFiles
              submitted := i :: out.submitted }
      else
        passOne detect skip fps rest (i + 1) p

/-- The second (interpolation) pass: for each source frame, in order, the
scratch file written into `temp_frames` and the image written to it. -/
def passTwo (g : String → ℚ → ℤ → ℤ × ℤ)
    (results : List (ℕ × (List Detection × Image))) (video : List Image) :
    List (String × Image) :=
  video.enum.map fun p => (frameFileName p.1, interpolateFrame g results p.1 p.2)

/-- Final observable state of one `_generate_video_frames` run. -/
structure PipelineResult where
  events : List Event
  error : Option String
  sourceDeleted : Bool
  tempFramesRemoved : Bool
  tempFiles : List (String × Image)
  framesDirFiles : List String
  results : List (ℕ × (List Detection × Image))
  submitted : List ℕ

/-- Embedding of `_generate_video_frames` end to end: yield the `status` event, run the
sampling pass (yielding `frame` events), yield the `complete` event, run the
interpolation pass writing scratch frames, invoke ffmpeg, and on success
remove the scratch directory and yield `video_ready`.  An encoder exception
propagates out of the `try`; the `finally` block always deletes the uploaded
source file (its own failure swallowed), but the `shutil.rmtree` of the
scratch directory sits on the success path only. -/
def runPipeline (video : List Image) (fps : ℕ) (processedName : String)
    (skip : ℕ) (g : String → ℚ → ℤ → ℤ × ℤ) (detect : ℕ → Image → DetectOutcome)
    (enc : EncoderOutcome) : PipelineResult :=
  let total := video.length
  let url := "/static/" ++ processedName
  let p1 := passOne detect skip fps video 0 0
  let statusEv := Event.status "Starting video processing..."
      (estimatedProcessedFrames total skip)
  let completeEv := Event.complete "Video processing completed" p1.processed url
  let temp := passTwo g p1.results video
  match createVideoFromFrames enc with
  | Except.error e =>
      { events := statusEv :: p1.events ++ [completeEv]
        error := some e
        sourceDeleted := true
        tempFramesRemoved := false
        tempFiles := temp
        framesDirFiles := p1.framesDirFiles
        results := p1.results
        submitted := p1.submitted }
  | Except.ok _ =>
      { events := statusEv :: p1.events ++
          [completeEv, Event.videoReady "Video with detections created successfully" url]
        error := none
        sourceDeleted := true
        tempFramesRemoved := true
        tempFiles := temp
        framesDirFiles := p1.framesDirFiles
        results := p1.results
        submitted := p1.submitted }

/-- The per-request file and directory names chosen by `detect_video`
together with `_generate_video_frames`, as functions of the request context
(`int(time.time())` at upload and the uploaded filename): the saved upload,
the processed output, and the scratch frame directory.  The scratch
directory is `Path(self.config.static_dir) / "temp_frames"` — it does not
depend on the request. -/
def requestPaths (staticDir : String) (now : ℕ) (filename : String) :
    String × String × String :=
  ("uploaded_" ++ toString now ++ "_" ++ filename,
   "processed_" ++ toString now ++ "_" ++ filename,
   staticDir ++ "/" ++ "temp_frames")

/-- The scratch directory a request uses (third component of
`requestPaths`). -/
def requestTempFramesDir (staticDir : String) (now : ℕ) (filename : String) :
    String :=
  (requestPaths staticDir now filename).2.2

/-- Event classifiers. -/
def Event.isFrame : Event → Bool
  | Event.frame _ _ _ _ _ => true
  | _ => false

def Event.isVideoReady : Event → Bool
  | Event.videoReady _ _ => true
  | _ => false

/-- The frame numbers carried by the `frame` events of a stream, in order. -/
def frameNumbers (events : List Event) : List ℕ :=
  events.filterMap fun e =>
    match e with
    | Event.frame n _ _ _ _ => some n
    | _ => none

/-! ### Nearest-processed-frame lookup -/

theorem scanNearest_mem (i : ℕ) : ∀ (l : List ℕ) (best : ℕ),
    scanNearest i best l ∈ best :: l := by
  intro l
  induction l with
  | nil => intro best; simp [scanNearest]
  | cons f rest ih =>
      intro best
      simp only [scanNearest]
      split_ifs with h
      · have := ih f
        simp only [List.mem_cons] at this ⊢
        tauto
      · have := ih best
        simp only [List.mem_cons] at this ⊢
        tauto

theorem scanNearest_min (i : ℕ) : ∀ (l : List ℕ) (best : ℕ), ∀ j ∈ best :: l,
    Nat.dist i (scanNearest i best l) ≤ Nat.dist i j := by
  intro l
  induction l with
  | nil =>
      intro best j hj
      simp only [List.mem_cons, List.not_mem_nil, or_false] at hj
      subst hj
      simp [scanNearest]
  | cons f rest ih =>
      intro best j hj
      simp only [scanNearest]
      split_ifs with h
      · rcases List.mem_cons.mp hj with hj | hj
        · subst hj
          exact le_trans (ih f f (List.mem_cons_self f rest)) (le_of_lt h)
        · exact ih f j hj
      · rcases List.mem_cons.mp hj with hj | hj
        · rw [hj]
          exact ih best best (List.mem_cons_self best rest)
        · rcases List.mem_cons.mp hj with hj | hj
          · subst hj
            exact le_trans (ih best best (List.mem_cons_self best rest)) (not_lt.mp h)
          · exact ih best j (List.mem_cons.mpr (Or.inr hj))

theorem scanNearest_eq_or_lt (i : ℕ) : ∀ (l : List ℕ) (best : ℕ),
    scanNearest i best l = best ∨
      Nat.dist i (scanNearest i best l) < Nat.dist i best := by
  intro l
  induction l with
  | nil => intro best; left; rfl
  | cons f rest ih =>
      intro best
      simp only [scanNearest]
      split_ifs with h
      · right
        rcases ih f with h1 | h1
        · rw [h1]; exact h
        · exact lt_trans h1 h
      · exact ih best

theorem scanNearest_tie (i : ℕ) : ∀ (l : List ℕ) (best : ℕ),
    List.Sorted (· ≤ ·) (best :: l) → ∀ j ∈ best :: l,
      Nat.dist i j = Nat.dist i (scanNearest i best l) → scanNearest i best l ≤ j := by
  intro l
  induction l with
  | nil =>
      intro best _ j hj _
      simp only [List.mem_cons, List.not_mem_nil, or_false] at hj
      subst hj
      simp [scanNearest]
  | cons f rest ih =>
      intro best hsort j hj hdist
      simp only [scanNearest] at hdist ⊢
      split_ifs with h
      · rw [if_pos h] at hdist
        have hsort' : List.Sorted (· ≤ ·) (f :: rest) := (List.sorted_cons.mp hsort).2
        rcases List.mem_cons.mp hj with hj | hj
        · subst hj
          have hle : Nat.dist i (scanNearest i f rest) ≤ Nat.dist i f :=
            scanNearest_min i rest f f (List.mem_cons_self f rest)
          omega
        · exact ih f hsort' j hj hdist
      · rw [if_neg h] at hdist
        have hbf : best ≤ f := (List.sorted_cons.mp hsort).1 f (List.mem_cons_self f rest)
        have hsort2 : List.Sorted (· ≤ ·) (best :: rest) := by
          rw [List.sorted_cons]
          constructor
          · intro b hb
            exact (List.sorted_cons.mp hsort).1 b (List.mem_cons.mpr (Or.inr hb))
          · exact (List.sorted_cons.mp (List.sorted_cons.mp hsort).2).2
        rcases List.mem_cons.mp hj with hj | hj
        · rw [hj] at hdist ⊢
          exact ih best hsort2 best (List.mem_cons_self best rest) hdist
        · rcases List.mem_cons.mp hj with hj | hj
          · subst hj
            rcases scanNearest_eq_or_lt i rest best with h1 | h1
            · rw [h1]; exact hbf
            · omega
          · exact ih best hsort2 j (List.mem_cons.mpr (Or.inr hj)) hdist

/-- Claim C2: for every query frame index `i` and every non-empty list of
sampled frame indices, `_find_nearest_processed_frame` returns a sampled
index of minimal absolute distance to `i`, and among sampled indices at that
minimal distance it returns the lowest one. -/
theorem findNearestProcessedFrame_spec (i : ℕ) (l : List ℕ) (hl : l ≠ []) :
    findNearestProcessedFrame i l ∈ l ∧
      (∀ j ∈ l, Nat.dist i (findNearestProcessedFrame i l) ≤ Nat.dist i j) ∧
      (∀ j ∈ l, Nat.dist i j = Nat.dist i (findNearestProcessedFrame i l) →
        findNearestProcessedFrame i l ≤ j) := by
  have hperm := List.perm_insertionSort (· ≤ ·) l
  have hsort := List.sorted_insertionSort (· ≤ ·) l
  cases hs : List.insertionSort (· ≤ ·) l with
  | nil =>
      rw [hs] at hperm
      exact absurd (List.Perm.eq_nil hperm.symm) hl
  | cons nearest rest =>
      rw [hs] at hperm hsort
      have hgoal : findNearestProcessedFrame i l = scanNearest i nearest (nearest :: rest) := by
        unfold findNearestProcessedFrame
        rw [hs]
      have hsort2 : List.Sorted (· ≤ ·) (nearest :: nearest :: rest) := by
        rw [List.sorted_cons]
        refine ⟨fun b hb => ?_, hsort⟩
        rcases List.mem_cons.mp hb with hb | hb
        · exact le_of_eq hb.symm
        · exact (List.sorted_cons.mp hsort).1 b hb
      have hmem : scanNearest i nearest (nearest :: rest) ∈ nearest :: rest := by
        rcases List.mem_cons.mp (scanNearest_mem i (nearest :: rest) nearest) with h | h
        · rw [h]; exact List.mem_cons_self nearest rest
        · exact h
      rw [hgoal]
      refine ⟨hperm.mem_iff.mp hmem, fun j hj => ?_, fun j hj hd => ?_⟩
      · exact scanNearest_min i (nearest :: rest) nearest j
          (List.mem_cons.mpr (Or.inr (hperm.mem_iff.mpr hj)))
      · exact scanNearest_tie i (nearest :: rest) nearest hsort2 j
          (List.mem_cons.mpr (Or.inr (hperm.mem_iff.mpr hj))) hd

/-- Witness for C2 at the spec's own scenario: query index 7 over sampled
indices `{0, 5, 10}` (the result is 5). -/
theorem findNearestProcessedFrame_spec_witness :
    ([0, 5, 10] : List ℕ) ≠ [] ∧
      (findNearestProcessedFrame 7 [0, 5, 10] ∈ [0, 5, 10] ∧
        (∀ j ∈ [0, 5, 10], Nat.dist 7 (findNearestProcessedFrame 7 [0, 5, 10]) ≤ Nat.dist 7 j) ∧
        (∀ j ∈ [0, 5, 10], Nat.dist 7 j = Nat.dist 7 (findNearestProcessedFrame 7 [0, 5, 10]) →
          findNearestProcessedFrame 7 [0, 5, 10] ≤ j)) :=
  ⟨by decide, findNearestProcessedFrame_spec 7 [0, 5, 10] (by decide)⟩

/-! ### Skip-interval computation -/

/-- Claim C5: for every source frame rate `F` and target detection rate
`T ≥ 1`, `calculate_skip_frames` succeeds and returns
`max 1 ⌊F / T⌋` (Python's `//` is floor division). -/
theorem calculate_skip_frames_spec (F T : ℤ) (h : 1 ≤ T) :
    calculate_skip_frames F T = Except.ok (max 1 ⌊(F : ℚ) / (T : ℚ)⌋) := by
  have hT : T ≠ 0 := by omega
  unfold calculate_skip_frames
  rw [if_neg hT]
  have hfd : Int.fdiv F T = ⌊(F : ℚ) / (T : ℚ)⌋ := by
    rw [Int.fdiv_eq_ediv F (by omega)]
    have h1 : (T : ℚ) = ((T.toNat : ℕ) : ℚ) := by
      rw_mod_cast [Int.toNat_of_nonneg (by omega)]
    rw [h1, Rat.floor_intCast_div_natCast F T.toNat,
      Int.toNat_of_nonneg (show (0 : ℤ) ≤ T by omega)]
  rw [hfd]

/-- Witness for C5 at `F = 30`, `T = 2` (skip = 15). -/
theorem calculate_skip_frames_spec_witness :
    (1 : ℤ) ≤ 2 ∧
      calculate_skip_frames 30 2 = Except.ok (max 1 ⌊(30 : ℚ) / (2 : ℚ)⌋) :=
  ⟨by norm_num, calculate_skip_frames_spec 30 2 (by norm_num)⟩

/-- Claim C10: whatever the source frame rate and target rate, any skip
interval `calculate_skip_frames` actually returns is at least 1; hence the
sampling modulus `frame_count % skip_frames` is never a modulo by zero, and
the guarded estimate `total // skip if skip > 0 else total` always takes its
division branch. -/
theorem skip_interval_positive (F T s : ℤ)
    (h : calculate_skip_frames F T = Except.ok s) :
    1 ≤ s ∧ s.toNat ≠ 0 ∧
      ∀ total : ℕ, estimatedProcessedFrames total s.toNat = total / s.toNat := by
  unfold calculate_skip_frames at h
  by_cases hT : T = 0
  · rw [if_pos hT] at h
    exact absurd h (by simp)
  · rw [if_neg hT] at h
    simp only [Except.ok.injEq] at h
    have h1 : 1 ≤ s := h ▸ le_max_left _ _
    refine ⟨h1, by omega, fun total => ?_⟩
    unfold estimatedProcessedFrames
    rw [if_pos (by omega)]

/-- Witness for C10 at `F = 30`, `T = 2`. -/
theorem skip_interval_positive_witness :
    calculate_skip_frames 30 2 = Except.ok 15 ∧
      (1 ≤ (15 : ℤ) ∧ (15 : ℤ).toNat ≠ 0 ∧
        ∀ total : ℕ, estimatedProcessedFrames total (15 : ℤ).toNat = total / (15 : ℤ).toNat) :=
  ⟨by rfl, skip_interval_positive 30 2 15 (by rfl)⟩

/-! ### Counting sampled frames -/

theorem ceilDiv_step (N s : ℕ) (hs : 1 ≤ s) :
    (N + 1 + s - 1) / s = (N + s - 1) / s + (if N % s = 0 then 1 else 0) := by
  obtain ⟨q, r, hr, hN⟩ : ∃ q r, r < s ∧ N = s * q + r :=
    ⟨N / s, N % s, Nat.mod_lt N (by omega), (Nat.div_add_mod N s).symm⟩
  subst hN
  by_cases h0 : r = 0
  · subst h0
    rw [if_pos (by simp [Nat.mul_mod_right])]
    have e1 : s * q + 0 + 1 + s - 1 = s * q + s := by omega
    have e2 : s * q + 0 + s - 1 = s * q + (s - 1) := by omega
    rw [e1, e2, Nat.mul_add_div (by omega), Nat.mul_add_div (by omega),
      Nat.div_self (by omega), Nat.div_eq_of_lt (by omega)]
  · rw [if_neg (by rw [Nat.mul_add_mod, Nat.mod_eq_of_lt hr]; exact h0)]
    have e1 : s * q + r + 1 + s - 1 = s * q + (r + s) := by omega
    have e2 : s * q + r + s - 1 = s * q + (r + s - 1) := by omega
    rw [e1, e2, Nat.mul_add_div (by omega), Nat.mul_add_div (by omega)]
    have e3 : (r + s) / s = 1 := Nat.div_eq_of_lt_le (by omega) (by omega)
    have e4 : (r + s - 1) / s = 1 := Nat.div_eq_of_lt_le (by omega) (by omega)
    rw [e3, e4]

theorem count_multiples (s : ℕ) (hs : 1 ≤ s) (N : ℕ) :
    ((List.range N).filter (fun j => j % s == 0)).length = (N + s - 1) / s := by
  induction N with
  | zero =>
      have h0 : (s - 1) / s = 0 := Nat.div_eq_of_lt (by omega)
      simp [h0]
  | succ N ih =>
      rw [List.range_succ, List.filter_append, List.length_append, ih,
        ceilDiv_step N s hs]
      by_cases h : N % s = 0 <;> simp [h]

/-! ### Structure of the sampling pass -/

theorem passOne_submitted (detect : ℕ → Image → DetectOutcome) (skip fps : ℕ) :
    ∀ (frames : List Image) (i p : ℕ),
      (passOne detect skip fps frames i p).submitted =
        (List.range' i frames.length).filter (fun j => j % skip == 0) := by
  intro frames
  induction frames with
  | nil => intro i p; simp [passOne]
  | cons frame rest ih =>
      intro i p
      rw [List.length_cons, List.range'_succ, List.filter_cons]
      by_cases h : i % skip = 0
      · rw [if_pos (by simpa using h)]
        cases hd : detect i frame with
        | err m => simp [passOne, h, hd, ih (i + 1) p]
        | ok dets ann =>
            cases ann with
            | none => simp [passOne, h, hd, ih (i + 1) p]
            | some a => simp [passOne, h, hd, ih (i + 1) (p + 1)]
      · rw [if_neg (by simpa using h)]
        simp [passOne, h, ih (i + 1) p]

theorem passOne_events_spec (detect : ℕ → Image → DetectOutcome) (skip fps : ℕ) :
    ∀ (frames : List Image) (i p : ℕ),
      p ≤ (passOne detect skip fps frames i p).processed ∧
        frameNumbers (passOne detect skip fps frames i p).events =
          List.range' p ((passOne detect skip fps frames i p).processed - p) ∧
        ∀ e ∈ (passOne detect skip fps frames i p).events, e.isFrame = true := by
  intro frames
  induction frames with
  | nil => intro i p; simp [passOne, frameNumbers]
  | cons frame rest ih =>
      intro i p
      by_cases h : i % skip = 0
      · cases hd : detect i frame with
        | err m =>
            simp only [passOne, if_pos h, hd]
            exact ih (i + 1) p
        | ok dets ann =>
            cases ann with
            | none =>
                simp only [passOne, if_pos h, hd]
                exact ih (i + 1) p
            | some a =>
                obtain ⟨h1, h2, h3⟩ := ih (i + 1) (p + 1)
                simp only [passOne, if_pos h, hd]
                refine ⟨by omega, ?_, ?_⟩
                · simp only [frameNumbers, List.filterMap_cons] at h2 ⊢
                  have e : (passOne detect skip fps rest (i + 1) (p + 1)).processed - p =
                      ((passOne detect skip fps rest (i + 1) (p + 1)).processed - (p + 1)) + 1 := by
                    omega
                  rw [e, List.range'_succ, ← h2]
                · intro e he
                  rcases List.mem_cons.mp he with he | he
                  · rw [he]; rfl
                  · exact h3 e he
      · simp only [passOne, if_neg h]
        exact ih (i + 1) p

theorem passOne_results_lookup_err (detect : ℕ → Image → DetectOutcome) (skip fps : ℕ) :
    ∀ (frames : List Image) (i p k : ℕ) (hk : k < frames.length) (msg : String),
      (i + k) % skip = 0 →
      detect (i + k) (frames.get ⟨k, hk⟩) = DetectOutcome.err msg →
      (passOne detect skip fps frames i p).results.lookup (i + k) =
        some ([], frames.get ⟨k, hk⟩) := by
  intro frames
  induction frames with
  | nil => intro i p k hk; exact absurd hk (by simp)
  | cons frame rest ih =>
      intro i p k hk msg hmod hdet
      cases k with
      | zero =>
          simp only [Nat.add_zero] at hmod hdet ⊢
          simp only [List.get] at hdet ⊢
          simp [passOne, if_pos hmod, hdet, List.lookup]
      | succ k =>
          have hne : ((i + (k + 1) : ℕ) == i) = false := by
            simp only [beq_eq_false_iff_ne, ne_eq]
            omega
          have hk' : k < rest.length := by simpa using hk
          have hmod' : ((i + 1) + k) % skip = 0 := by
            rw [show (i + 1) + k = i + (k + 1) by omega]
            exact hmod
          have hget : (frame :: rest).get ⟨k + 1, hk⟩ = rest.get ⟨k, hk'⟩ := rfl
          have hdet' : detect ((i + 1) + k) (rest.get ⟨k, hk'⟩) = DetectOutcome.err msg := by
            rw [show (i + 1) + k = i + (k + 1) by omega, ← hget]
            exact hdet
          have ihk := ih (i + 1) p k hk' msg hmod' hdet'
          rw [show (i + 1) + k = i + (k + 1) by omega] at ihk
      
          rw [hget]
          by_cases h : i % skip = 0
          · cases hd : detect i frame with
            | err m =>
                simp only [passOne, if_pos h, hd]
                rw [List.lookup, hne]
                exact ihk
            | ok dets ann =>
                cases ann with
                | none =>
                    simp only [passOne, if_pos h, hd]
                    exact ihk
                | some a =>
                    simp only [passOne, if_pos h, hd]
                    rw [List.lookup, hne]
                    have ihk2 := ih (i + 1) (p + 1) k hk' msg hmod' hdet'
                    rw [show (i + 1) + k = i + (k + 1) by omega] at ihk2
                    exact ihk2
          · simp only [passOne, if_neg h]
            exact ihk

/-! ### Whole-pipeline structure -/

theorem runPipeline_eq_err (video : List Image) (fps : ℕ) (name : String)
    (skip : ℕ) (g : String → ℚ → ℤ → ℤ × ℤ) (detect : ℕ → Image → DetectOutcome)
    (enc : EncoderOutcome) (e : String)
    (h : createVideoFromFrames enc = Except.error e) :
    runPipeline video fps name skip g detect enc =
      { events := Event.status "Starting video processing..."
            (estimatedProcessedFrames video.length skip) ::
            (passOne detect skip fps video 0 0).events ++
            [Event.complete "Video processing completed"
              (passOne detect skip fps video 0 0).processed ("/static/" ++ name)]
        error := some e
        sourceDeleted := true
        tempFramesRemoved := false
        tempFiles := passTwo g (passOne detect skip fps video 0 0).results video
        framesDirFiles := (passOne detect skip fps video 0 0).framesDirFiles
        results := (passOne detect skip fps video 0 0).results
        submitted := (passOne detect skip fps video 0 0).submitted } := by
  unfold runPipeline
  rw [h]

theorem runPipeline_eq_ok (video : List Image) (fps : ℕ) (name : String)
    (skip : ℕ) (g : String → ℚ → ℤ → ℤ × ℤ) (detect : ℕ → Image → DetectOutcome)
    (enc : EncoderOutcome)
    (h : createVideoFromFrames enc = Except.ok ()) :
    runPipeline video fps name skip g detect enc =
      { events := Event.status "Starting video processing..."
            (estimatedProcessedFrames video.length skip) ::
            (passOne detect skip fps video 0 0).events ++
            [Event.complete "Video processing completed"
              (passOne detect skip fps video 0 0).processed ("/static/" ++ name),
             Event.videoReady "Video with detections created successfully"
              ("/static/" ++ name)]
        error := none
        sourceDeleted := true
        tempFramesRemoved := true
        tempFiles := passTwo g (passOne detect skip fps video 0 0).results video
        framesDirFiles := (passOne detect skip fps video 0 0).framesDirFiles
        results := (passOne detect skip fps video 0 0).results
        submitted := (passOne detect skip fps video 0 0).submitted } := by
  unfold runPipeline
  rw [h]

theorem chain'_lt_range' (s n : ℕ) : List.Chain' (· < ·) (List.range' s n) := by
  induction n generalizing s with
  | zero => simp
  | succ n ih =>
      rw [List.range'_succ]
      cases n with
      | zero => simp
      | succ m =>
          rw [List.range'_succ, List.chain'_cons]
          exact ⟨by omega, by rw [← List.range'_succ]; exact ih (s + 1)⟩

/-- Claim C3: a pipeline run that terminates normally (reaches `video_ready`)
streams exactly one `status` event first, then zero or more `frame` events
with strictly increasing frame numbers, then exactly one `complete` event
ending the detection phase, then exactly one final `video_ready` event. -/
theorem event_stream_shape (video : List Image) (fps : ℕ) (name : String)
    (skip : ℕ) (g : String → ℚ → ℤ → ℤ × ℤ) (detect : ℕ → Image → DetectOutcome)
    (enc : EncoderOutcome)
    (hdone : (runPipeline video fps name skip g detect enc).error = none) :
    ∃ fs : List Event, ∃ total : ℕ,
      (runPipeline video fps name skip g detect enc).events =
          Event.status "Starting video processing..."
              (estimatedProcessedFrames video.length skip) ::
            fs ++
            [Event.complete "Video processing completed" total ("/static/" ++ name),
             Event.videoReady "Video with detections created successfully"
               ("/static/" ++ name)] ∧
        (∀ e ∈ fs, e.isFrame = true) ∧
        List.Chain' (· < ·) (frameNumbers fs) := by
  cases hc : createVideoFromFrames enc with
  | error e =>
      rw [runPipeline_eq_err video fps name skip g detect enc e hc] at hdone
      simp at hdone
  | ok u =>
      cases u
      rw [runPipeline_eq_ok video fps name skip g detect enc hc]
      refine ⟨(passOne detect skip fps video 0 0).events,
        (passOne detect skip fps video 0 0).processed, rfl, ?_, ?_⟩
      · exact (passOne_events_spec detect skip fps video 0 0).2.2
      · rw [(passOne_events_spec detect skip fps video 0 0).2.1]
        exact chain'_lt_range' 0 _

/-- Claim C4: with a skip interval `S ≥ 1`, the sampling pass submits frame `i`
to the detector iff `i mod S = 0`, and the number of submitted (sampled)
frames is `⌈N / S⌉ = (N + S - 1) / S` for an `N`-frame source. -/
theorem sampling_iff_and_count (video : List Image) (fps : ℕ) (name : String)
    (skip : ℕ) (g : String → ℚ → ℤ → ℤ × ℤ) (detect : ℕ → Image → DetectOutcome)
    (enc : EncoderOutcome) (hskip : 1 ≤ skip) :
    (∀ j : ℕ, j ∈ (runPipeline video fps name skip g detect enc).submitted ↔
        j < video.length ∧ j % skip = 0) ∧
      (runPipeline video fps name skip g detect enc).submitted.length =
        (video.length + skip - 1) / skip := by
  have hsub : (runPipeline video fps name skip g detect enc).submitted =
      (List.range video.length).filter (fun j => j % skip == 0) := by
    rw [List.range_eq_range', ← passOne_submitted detect skip fps video 0 0]
    cases hc : createVideoFromFrames enc with
    | error e => rw [runPipeline_eq_err video fps name skip g detect enc e hc]
    | ok u => cases u; rw [runPipeline_eq_ok video fps name skip g detect enc hc]
  rw [hsub]
  constructor
  · intro j
    simp [List.mem_filter, List.mem_range]
  · exact count_multiples skip hskip video.length

/-- Witness for C4: a 3-frame source with skip 2 submits frames 0 and 2,
`⌈3/2⌉ = 2` frames in total. -/
theorem sampling_iff_and_count_witness :
    1 ≤ 2 ∧
      ((∀ j : ℕ, j ∈ (runPipeline [Image.raw 0, Image.raw 1, Image.raw 2] 1 "p.mp4" 2
            (fun _ _ _ => (1, 1)) (fun _ _ => DetectOutcome.ok [] none)
            (EncoderOutcome.exit 0 "")).submitted ↔
          j < [Image.raw 0, Image.raw 1, Image.raw 2].length ∧ j % 2 = 0) ∧
        (runPipeline [Image.raw 0, Image.raw 1, Image.raw 2] 1 "p.mp4" 2
            (fun _ _ _ => (1, 1)) (fun _ _ => DetectOutcome.ok [] none)
            (EncoderOutcome.exit 0 "")).submitted.length =
          ([Image.raw 0, Image.raw 1, Image.raw 2].length + 2 - 1) / 2) :=
  ⟨by decide,
    sampling_iff_and_count [Image.raw 0, Image.raw 1, Image.raw 2] 1 "p.mp4" 2
      (fun _ _ _ => (1, 1)) (fun _ _ => DetectOutcome.ok [] none)
      (EncoderOutcome.exit 0 "") (by decide)⟩

/-- Witness for C3: a one-frame source, detector returning an annotated
frame with no detections, encoder exiting 0. -/
theorem event_stream_shape_witness :
    (runPipeline [Image.raw 0] 1 "p.mp4" 1 (fun _ _ _ => (1, 1))
        (fun _ _ => DetectOutcome.ok [] (some (Image.raw 7)))
        (EncoderOutcome.exit 0 "")).error = none ∧
      (∃ fs : List Event, ∃ total : ℕ,
        (runPipeline [Image.raw 0] 1 "p.mp4" 1 (fun _ _ _ => (1, 1))
            (fun _ _ => DetectOutcome.ok [] (some (Image.raw 7)))
            (EncoderOutcome.exit 0 "")).events =
            Event.status "Starting video processing..."
                (estimatedProcessedFrames [Image.raw 0].length 1) ::
              fs ++
              [Event.complete "Video processing completed" total ("/static/" ++ "p.mp4"),
               Event.videoReady "Video with detections created successfully"
                 ("/static/" ++ "p.mp4")] ∧
          (∀ e ∈ fs, e.isFrame = true) ∧
          List.Chain' (· < ·) (frameNumbers fs)) :=
  ⟨by rfl,
    event_stream_shape [Image.raw 0] 1 "p.mp4" 1 (fun _ _ _ => (1, 1))
      (fun _ _ => DetectOutcome.ok [] (some (Image.raw 7)))
      (EncoderOutcome.exit 0 "") (by rfl)⟩

/-- Claim C7: if the detector raises on a sampled frame `k`, the pipeline
stores an empty detection set (with the original frame) for `k` in
`detection_results`, still submits every sampled frame, and still yields the
`complete` event — one frame's inference failure never terminates the run. -/
theorem detection_failure_recovered (video : List Image) (fps : ℕ) (name : String)
    (skip : ℕ) (g : String → ℚ → ℤ → ℤ × ℤ) (detect : ℕ → Image → DetectOutcome)
    (enc : EncoderOutcome) (k : ℕ) (msg : String)
    (hk : k < video.length) (hmod : k % skip = 0)
    (hdet : detect k (video.get ⟨k, hk⟩) = DetectOutcome.err msg) :
    (runPipeline video fps name skip g detect enc).results.lookup k =
        some ([], video.get ⟨k, hk⟩) ∧
      (∀ j : ℕ, j ∈ (runPipeline video fps name skip g detect enc).submitted ↔
        j < video.length ∧ j % skip = 0) ∧
      Event.complete "Video processing completed"
          (passOne detect skip fps video 0 0).processed ("/static/" ++ name) ∈
        (runPipeline video fps name skip g detect enc).events := by
  have hres : (runPipeline video fps name skip g detect enc).results =
      (passOne detect skip fps video 0 0).results := by
    cases hc : createVideoFromFrames enc with
    | error e => rw [runPipeline_eq_err video fps name skip g detect enc e hc]
    | ok u => cases u; rw [runPipeline_eq_ok video fps name skip g detect enc hc]
  have hsub : (runPipeline video fps name skip g detect enc).submitted =
      (passOne detect skip fps video 0 0).submitted := by
    cases hc : createVideoFromFrames enc with
    | error e => rw [runPipeline_eq_err video fps name skip g detect enc e hc]
    | ok u => cases u; rw [runPipeline_eq_ok video fps name skip g detect enc hc]
  refine ⟨?_, ?_, ?_⟩
  · rw [hres]
    have := passOne_results_lookup_err detect skip fps video 0 0 k hk msg
      (by simpa using hmod) (by simpa using hdet)
    simpa using this
  · intro j
    rw [hsub, passOne_submitted detect skip fps video 0 0, ← List.range_eq_range']
    simp [List.mem_filter, List.mem_range]
  · cases hc : createVideoFromFrames enc with
    | error e =>
        rw [runPipeline_eq_err video fps name skip g detect enc e hc]
        simp
    | ok u =>
        cases u
        rw [runPipeline_eq_ok video fps name skip g detect enc hc]
        simp

/-- Witness for C7: a 2-frame source with skip 1 where the detector raises
on frame 0 and succeeds on frame 1. -/
theorem detection_failure_recovered_witness :
    (0 : ℕ) < [Image.raw 0, Image.raw 1].length ∧ (0 : ℕ) % 1 = 0 ∧
      (fun (i : ℕ) (_ : Image) =>
          if i = 0 then DetectOutcome.err "boom"
          else DetectOutcome.ok [] (some (Image.raw 9))) 0
          ([Image.raw 0, Image.raw 1].get ⟨0, by decide⟩) = DetectOutcome.err "boom" ∧
      ((runPipeline [Image.raw 0, Image.raw 1] 1 "p.mp4" 1 (fun _ _ _ => (1, 1))
          (fun (i : ℕ) (_ : Image) =>
            if i = 0 then DetectOutcome.err "boom"
            else DetectOutcome.ok [] (some (Image.raw 9)))
          (EncoderOutcome.exit 0 "")).results.lookup 0 =
          some ([], [Image.raw 0, Image.raw 1].get ⟨0, by decide⟩) ∧
        (∀ j : ℕ, j ∈ (runPipeline [Image.raw 0, Image.raw 1] 1 "p.mp4" 1
            (fun _ _ _ => (1, 1))
            (fun (i : ℕ) (_ : Image) =>
              if i = 0 then DetectOutcome.err "boom"
              else DetectOutcome.ok [] (some (Image.raw 9)))
            (EncoderOutcome.exit 0 "")).submitted ↔
          j < [Image.raw 0, Image.raw 1].length ∧ j % 1 = 0) ∧
        Event.complete "Video processing completed"
            (passOne (fun (i : ℕ) (_ : Image) =>
              if i = 0 then DetectOutcome.err "boom"
              else DetectOutcome.ok [] (some (Image.raw 9))) 1 1
              [Image.raw 0, Image.raw 1] 0 0).processed ("/static/" ++ "p.mp4") ∈
          (runPipeline [Image.raw 0, Image.raw 1] 1 "p.mp4" 1 (fun _ _ _ => (1, 1))
            (fun (i : ℕ) (_ : Image) =>
              if i = 0 then DetectOutcome.err "boom"
              else DetectOutcome.ok [] (some (Image.raw 9)))
            (EncoderOutcome.exit 0 "")).events) :=
  ⟨by decide, by decide, by rfl,
    detection_failure_recovered [Image.raw 0, Image.raw 1] 1 "p.mp4" 1
      (fun _ _ _ => (1, 1))
      (fun (i : ℕ) (_ : Image) =>
        if i = 0 then DetectOutcome.err "boom"
        else DetectOutcome.ok [] (some (Image.raw 9)))
      (EncoderOutcome.exit 0 "") 0 "boom" (by decide) (by decide) (by rfl)⟩

/-- Claim C8: with the encoder binary absent, the run streams exactly the
events of the success case minus the final `video_ready` (so `status`, all
`frame` events and the `complete` event are unchanged), terminates with the
error message naming FFmpeg, and never emits a `video_ready` event. -/
theorem encoder_absent_spec (video : List Image) (fps : ℕ) (name : String)
    (skip : ℕ) (g : String → ℚ → ℤ → ℤ × ℤ)
    (detect : ℕ → Image → DetectOutcome) :
    (runPipeline video fps name skip g detect EncoderOutcome.absent).events ++
        [Event.videoReady "Video with detections created successfully"
          ("/static/" ++ name)] =
      (runPipeline video fps name skip g detect (EncoderOutcome.exit 0 "")).events ∧
      (runPipeline video fps name skip g detect EncoderOutcome.absent).error =
        some "FFmpeg not found. Please install FFmpeg to process videos." ∧
      ∀ e ∈ (runPipeline video fps name skip g detect EncoderOutcome.absent).events,
        e.isVideoReady = false := by
  have habs : createVideoFromFrames EncoderOutcome.absent =
      Except.error "FFmpeg not found. Please install FFmpeg to process videos." := rfl
  have hok : createVideoFromFrames (EncoderOutcome.exit 0 "") = Except.ok () := rfl
  rw [runPipeline_eq_err video fps name skip g detect EncoderOutcome.absent _ habs,
    runPipeline_eq_ok video fps name skip g detect (EncoderOutcome.exit 0 "") hok]
  refine ⟨by simp, rfl, ?_⟩
  intro e he
  simp only [List.cons_append, List.mem_cons, List.mem_append,
    List.mem_singleton] at he
  rcases he with he | he | he | he
  · rw [he]; rfl
  · have hf := (passOne_events_spec detect skip fps video 0 0).2.2 e he
    cases e <;> simp_all [Event.isFrame, Event.isVideoReady]
  · rw [he]; rfl
  · simp at he

/-- Counterexample to C1: a concrete aborted run (encoder absent, one
source frame): the run terminates with scratch frames written during the
second pass but `shutil.rmtree` never executed — the scratch files survive
an `Aborted` termination, contradicting the unconditional-cleanup claim. -/
theorem cleanup_on_abort_counterexample :
    (runPipeline [Image.raw 0] 1 "p.mp4" 1 (fun _ _ _ => (1, 1))
        (fun _ _ => DetectOutcome.ok [] none) EncoderOutcome.absent).tempFiles ≠ [] ∧
      (runPipeline [Image.raw 0] 1 "p.mp4" 1 (fun _ _ _ => (1, 1))
        (fun _ _ => DetectOutcome.ok [] none) EncoderOutcome.absent).tempFramesRemoved
        = false ∧
      (runPipeline [Image.raw 0] 1 "p.mp4" 1 (fun _ _ _ => (1, 1))
        (fun _ _ => DetectOutcome.ok [] none) EncoderOutcome.absent).sourceDeleted
        = true := by
  refine ⟨?_, rfl, rfl⟩
  intro h
  simp [runPipeline, passTwo, createVideoFromFrames] at h

/-- Amended C1: on every termination the uploaded source file is
deleted, but the scratch frames are removed exactly when the pipeline
completes without error (reaches `Done`); an aborted run leaves them. -/
theorem cleanup_guarantee_amended (video : List Image) (fps : ℕ) (name : String)
    (skip : ℕ) (g : String → ℚ → ℤ → ℤ × ℤ)
    (detect : ℕ → Image → DetectOutcome) (enc : EncoderOutcome) :
    (runPipeline video fps name skip g detect enc).sourceDeleted = true ∧
      ((runPipeline video fps name skip g detect enc).tempFramesRemoved = true ↔
        (runPipeline video fps name skip g detect enc).error = none) := by
  cases hc : createVideoFromFrames enc with
  | error e => rw [runPipeline_eq_err video fps name skip g detect enc e hc]; simp
  | ok u => cases u; rw [runPipeline_eq_ok video fps name skip g detect enc hc]; simp

/-! ### Interpolation onto un-sampled frames -/

/-- Claim C6: for an un-sampled frame index `i` whose nearest sampled
neighbour is stored with detection list `dets`: if `dets` is empty the frame
passes through unmodified, and if `dets` is non-empty the output is the
current frame's own pixels (`Image.copy frame`, not the neighbour's stored
render) with, for each detection in order, the green width-2 bounding box,
the filled green label background, and the label
`class_name ++ " " ++ confidence to two decimals` drawn above the box at
`(x1, y1 - 5)` in the fixed font style. -/
theorem interpolation_spec (g : String → ℚ → ℤ → ℤ × ℤ)
    (results : List (ℕ × (List Detection × Image))) (i : ℕ) (frame : Image)
    (dets : List Detection) (a : Image)
    (_hun : i ∉ results.map Prod.fst)
    (hlook : results.lookup (findNearestProcessedFrame i (results.map Prod.fst)) =
      some (dets, a)) :
    (dets = [] → interpolateFrame g results i frame = frame) ∧
      (dets ≠ [] →
        interpolateFrame g results i frame =
          dets.foldl
            (fun img d =>
              Image.draw
                (Image.draw
                  (Image.draw img
                    (DrawOp.rectangle (pyInt d.bbox.1, pyInt d.bbox.2.1)
                      (pyInt d.bbox.2.2.1, pyInt d.bbox.2.2.2) (0, 255, 0) 2))
                  (DrawOp.rectangle
                    (pyInt d.bbox.1,
                      pyInt d.bbox.2.1 -
                        (g (d.class_name ++ " " ++ format2f d.confidence) (1 / 2) 2).2 - 10)
                    (pyInt d.bbox.1 +
                      (g (d.class_name ++ " " ++ format2f d.confidence) (1 / 2) 2).1,
                      pyInt d.bbox.2.1) (0, 255, 0) (-1)))
                (DrawOp.putText (d.class_name ++ " " ++ format2f d.confidence)
                  (pyInt d.bbox.1, pyInt d.bbox.2.1 - 5) (1 / 2) (0, 0, 0) 2))
            (Image.copy frame)) := by
  have hstep : interpolateFrame g results i frame =
      if dets = [] then frame else applyDetectionsToFrame g frame dets := by
    unfold interpolateFrame
    simp only [hlook]
  constructor
  · intro h
    rw [hstep, if_pos h]
  · intro h
    rw [hstep, if_neg h]
    rfl

/-- Witness for C6: one stored sampled frame 0 with a single detection,
queried at un-sampled index 1. -/
theorem interpolation_spec_witness :
    (1 : ℕ) ∉ ([(0, ([⟨(1, 2, 3, 4), 9 / 10, 0, "nike"⟩], Image.raw 5))] :
        List (ℕ × (List Detection × Image))).map Prod.fst ∧
      ([(0, ([⟨(1, 2, 3, 4), 9 / 10, 0, "nike"⟩], Image.raw 5))] :
          List (ℕ × (List Detection × Image))).lookup
          (findNearestProcessedFrame 1
            (([(0, ([⟨(1, 2, 3, 4), 9 / 10, 0, "nike"⟩], Image.raw 5))] :
              List (ℕ × (List Detection × Image))).map Prod.fst)) =
        some ([⟨(1, 2, 3, 4), 9 / 10, 0, "nike"⟩], Image.raw 5) ∧
      (([⟨(1, 2, 3, 4), 9 / 10, 0, "nike"⟩] : List Detection) = [] →
          interpolateFrame (fun _ _ _ => (40, 12))
            [(0, ([⟨(1, 2, 3, 4), 9 / 10, 0, "nike"⟩], Image.raw 5))] 1 (Image.raw 1) =
            Image.raw 1) ∧
        (([⟨(1, 2, 3, 4), 9 / 10, 0, "nike"⟩] : List Detection) ≠ [] →
          interpolateFrame (fun _ _ _ => (40, 12))
              [(0, ([⟨(1, 2, 3, 4), 9 / 10, 0, "nike"⟩], Image.raw 5))] 1 (Image.raw 1) =
            ([⟨(1, 2, 3, 4), 9 / 10, 0, "nike"⟩] : List Detection).foldl
              (fun img d =>
                Image.draw
                  (Image.draw
                    (Image.draw img
                      (DrawOp.rectangle (pyInt d.bbox.1, pyInt d.bbox.2.1)
                        (pyInt d.bbox.2.2.1, pyInt d.bbox.2.2.2) (0, 255, 0) 2))
                    (DrawOp.rectangle
                      (pyInt d.bbox.1,
                        pyInt d.bbox.2.1 -
                          ((fun (_ : String) (_ : ℚ) (_ : ℤ) => ((40 : ℤ), (12 : ℤ)))
                            (d.class_name ++ " " ++ format2f d.confidence) (1 / 2) 2).2 - 10)
                      (pyInt d.bbox.1 +
                        ((fun (_ : String) (_ : ℚ) (_ : ℤ) => ((40 : ℤ), (12 : ℤ)))
                          (d.class_name ++ " " ++ format2f d.confidence) (1 / 2) 2).1,
                        pyInt d.bbox.2.1) (0, 255, 0) (-1)))
                  (DrawOp.putText (d.class_name ++ " " ++ format2f d.confidence)
                    (pyInt d.bbox.1, pyInt d.bbox.2.1 - 5) (1 / 2) (0, 0, 0) 2))
              (Image.copy (Image.raw 1))) :=
  ⟨by decide, by rfl,
    interpolation_spec (fun _ _ _ => (40, 12))
      [(0, ([⟨(1, 2, 3, 4), 9 / 10, 0, "nike"⟩], Image.raw 5))] 1 (Image.raw 1)
      [⟨(1, 2, 3, 4), 9 / 10, 0, "nike"⟩] (Image.raw 5) (by decide) (by rfl)⟩

/-! ### Scratch directories across simultaneous requests -/

/-- Refutation of C9: two distinct simultaneous requests (different upload
time and filename, hence distinct uploaded-file names) nevertheless use the
very same scratch directory `static/temp_frames`, and the scratch frame
files they write there share names — the scratch storage is a shared,
collision-prone resource, not a per-request one. -/
theorem temp_frames_dir_shared :
    requestTempFramesDir "static" 100 "a.mp4" =
        requestTempFramesDir "static" 200 "b.mp4" ∧
      requestTempFramesDir "static" 100 "a.mp4" = "static/temp_frames" ∧
      (requestPaths "static" 100 "a.mp4").1 ≠ (requestPaths "static" 200 "b.mp4").1 :=
  ⟨rfl, by decide, by decide⟩
